import Mathlib

/-!
Verification of the 5G-AKA derivation core (package `milenage` and package
`aka`, plus the demonstration driver).  The Go sources are shallowly embedded:
byte slices become `List Nat` (each element a byte value), fallible functions
return `Option`, and pointer-receiver methods become state-passing functions
returning the updated `Milenage`/`Aka` record alongside their value.
-/

namespace FiveG

/-- Byte strings: each element is intended to be `< 256`. -/
abbrev Bytes := List Nat

/-- Indexing with the Go convention that all reads in the sources are
in-bounds; out-of-bounds defaults to 0 (never exercised on validated data). -/
def getB (xs : Bytes) (i : Nat) : Nat := xs.getD i 0

/-! ## AES-128 single-block encryption (Go `crypto/aes`, encryption direction)

The S-box is stored as one big natural: byte `n` of the table sits at bit
offset `8*n`. -/

def sboxNat : Nat :=
  0x16bb54b00f2d99416842e6bf0d89a18cdf2855cee9871e9b948ed9691198f8e19e1dc186b95735610ef6034866b53e708a8bbd4b1f74dde8c6b4a61c2e2578ba08ae7a65eaf4566ca94ed58d6d37c8e779e4959162acd3c25c2406490a3a32e0db0b5ede14b8ee4688902a22dc4f816073195d643d7ea7c41744975fec130ccdd2f3ff1021dab6bcf5389d928f40a351a89f3c507f02f94585334d43fbaaefd0cf584c4a39becb6a5bb1fc20ed00d153842fe329b3d63b52a05a6e1b1a2c830975b227ebe28012079a059618c323c7041531d871f1e5a534ccf73f362693fdb7c072a49cafa2d4adf04759fa7dc982ca76abd7fe2b670130c56f6bf27b777c63

/-- AES S-box lookup. -/
def sb (n : Nat) : Nat := (sboxNat >>> (8 * n)) &&& 255

/-- GF(2^8) doubling (`xtime`). -/
def xtime (b : Nat) : Nat := if b < 128 then b <<< 1 else ((b <<< 1) ^^^ 0x1b) &&& 255

/-- The four 32-bit words of a 16-byte key, big-endian. -/
def toWords (key : Bytes) : List Nat :=
  (List.range 4).map fun i =>
    (getB key (4 * i)) <<< 24 ||| (getB key (4 * i + 1)) <<< 16 |||
    (getB key (4 * i + 2)) <<< 8 ||| getB key (4 * i + 3)

/-- S-box applied to each byte of a 32-bit word. -/
def subWord (w : Nat) : Nat :=
  (sb ((w >>> 24) &&& 255)) <<< 24 ||| (sb ((w >>> 16) &&& 255)) <<< 16 |||
  (sb ((w >>> 8) &&& 255)) <<< 8 ||| sb (w &&& 255)

/-- Rotate a 32-bit word left by one byte. -/
def rotWord (w : Nat) : Nat := ((w <<< 8) &&& 0xffffffff) ||| ((w >>> 24) &&& 255)

/-- AES round constants for rounds 1..10 (placed in the high byte). -/
def rcons : List Nat := [0x01, 0x02, 0x04, 0x08, 0x10, 0x20, 0x40, 0x80, 0x1b, 0x36]

/-- AES-128 key expansion: the 44 words of the key schedule. -/
def expandKey (key : Bytes) : List Nat :=
  (List.range 40).foldl
    (fun w j =>
      let prev := w.getD (w.length - 1) 0
      let t := if j % 4 = 0 then subWord (rotWord prev) ^^^ ((rcons.getD (j / 4) 0) <<< 24)
               else prev
      w ++ [w.getD (w.length - 4) 0 ^^^ t])
    (toWords key)

/-- Bytes of round key `r` (16 bytes from words `4r..4r+3`). -/
def roundKey (w : List Nat) (r : Nat) : Bytes :=
  (List.range 16).map fun i => (w.getD (4 * r + i / 4) 0 >>> (8 * (3 - i % 4))) &&& 255

/-- A 16-byte block built positionally. -/
def rng16 (f : Nat → Nat) : Bytes := (List.range 16).map f

def addRoundKey (s k : Bytes) : Bytes := rng16 fun i => getB s i ^^^ getB k i

def subBytes (s : Bytes) : Bytes := s.map sb

/-- ShiftRows on the column-major state: out[4c+r] = in[4((c+r) mod 4)+r]. -/
def shiftRows (s : Bytes) : Bytes :=
  rng16 fun j => getB s (4 * ((j / 4 + j % 4) % 4) + j % 4)

/-- MixColumns on one column. -/
def mixCol (a0 a1 a2 a3 : Nat) : Bytes :=
  [xtime a0 ^^^ (xtime a1 ^^^ a1) ^^^ a2 ^^^ a3,
   a0 ^^^ xtime a1 ^^^ (xtime a2 ^^^ a2) ^^^ a3,
   a0 ^^^ a1 ^^^ xtime a2 ^^^ (xtime a3 ^^^ a3),
   (xtime a0 ^^^ a0) ^^^ a1 ^^^ a2 ^^^ xtime a3]

def mixColumns (s : Bytes) : Bytes :=
  ((List.range 4).map fun c =>
    mixCol (getB s (4 * c)) (getB s (4 * c + 1)) (getB s (4 * c + 2)) (getB s (4 * c + 3))).flatten

/-- One middle AES round. -/
def aesRound (rk s : Bytes) : Bytes := addRoundKey (mixColumns (shiftRows (subBytes s))) rk

/-- AES-128 encryption of one 16-byte block. -/
def aesBlock (key plain : Bytes) : Bytes :=
  let w := expandKey key
  let s0 := addRoundKey plain (roundKey w 0)
  let s9 := (List.range 9).foldl (fun s r => aesRound (roundKey w (r + 1)) s) s0
  addRoundKey (shiftRows (subBytes s9)) (roundKey w 10)

/-- `encrypt` from milenage.go (also the inlined cipher use in `computeOPc`):
`aes.NewCipher` rejects a key that is not 16 bytes (the 24/32-byte AES-192/256
key sizes are never reachable here, every call site checks or hypothesises a
16-byte key, so they are folded into the failure case); `Encrypt` panics when
the plaintext is shorter than one block, and otherwise writes the first
encrypted block into a zeroed buffer of the plaintext's length. -/
def encrypt (key plain : Bytes) : Option Bytes :=
  if key.length ≠ 16 then none
  else if plain.length < 16 then none
  else some (aesBlock key (plain.take 16) ++ List.replicate (plain.length - 16) 0)

/-! ## SHA-256 and HMAC-SHA-256 (Go `crypto/sha256`, `crypto/hmac`) -/

/-- Truncation to 32 bits. -/
def w32 (n : Nat) : Nat := n &&& 0xffffffff

/-- 32-bit right rotation. -/
def rotr32 (n x : Nat) : Nat := w32 ((x >>> n) ||| (x <<< (32 - n)))

def ssig0 (x : Nat) : Nat := rotr32 7 x ^^^ rotr32 18 x ^^^ (x >>> 3)

def ssig1 (x : Nat) : Nat := rotr32 17 x ^^^ rotr32 19 x ^^^ (x >>> 10)

def bsig0 (x : Nat) : Nat := rotr32 2 x ^^^ rotr32 13 x ^^^ rotr32 22 x

def bsig1 (x : Nat) : Nat := rotr32 6 x ^^^ rotr32 11 x ^^^ rotr32 25 x

def chF (x y z : Nat) : Nat := (x &&& y) ^^^ ((x ^^^ 0xffffffff) &&& z)

def majF (x y z : Nat) : Nat := (x &&& y) ^^^ (x &&& z) ^^^ (y &&& z)

/-- The 64 SHA-256 round constants, packed into one natural: round `t` sits
at bit offset `32*t`. -/
def k256Nat : Nat :=
  0xc67178f2bef9a3f7a4506ceb90befffa8cc7020884c8781478a5636f748f82ee682e6ff35b9cca4f4ed8aa4a391c0cb334b0bcb52748774c1e376c0819a4c116106aa070f40e3585d6990624d192e819c76c51a3c24b8b70a81a664ba2bfe8a192722c8581c2c92e766a0abb650a735453380d134d2c6dfc2e1b213827b70a851429296706ca6351d5a79147c6e00bf3bf597fc7b00327c8a831c66d983e515276f988da5cb0a9dc4a7484aa2de92c6f240ca1cc0fc19dc6efbe4786e49b69c1c19bf1749bdc06a780deb1fe72be5d74550c7dc3243185be12835b01d807aa98ab1c5ed5923f82a459f111f13956c25be9b5dba5b5c0fbcf71374491428a2f98

/-- SHA-256 round constants as a list. -/
def k256 : List Nat := (List.range 64).map fun t => (k256Nat >>> (32 * t)) &&& 0xffffffff

/-- The eight 32-bit working variables of SHA-256. -/
structure Hash8 where
  a : Nat
  b : Nat
  c : Nat
  d : Nat
  e : Nat
  f : Nat
  g : Nat
  h : Nat

/-- The eight SHA-256 initial hash values, packed like `k256Nat`. -/
def ivNat : Nat :=
  0x5be0cd191f83d9ab9b05688c510e527fa54ff53a3c6ef372bb67ae856a09e667

/-- Word `i` of the initial hash value. -/
def ivw (i : Nat) : Nat := (ivNat >>> (32 * i)) &&& 0xffffffff

def shaInit : Hash8 := ⟨ivw 0, ivw 1, ivw 2, ivw 3, ivw 4, ivw 5, ivw 6, ivw 7⟩

/-- Message schedule: 64 words from one 64-byte block. -/
def schedule (block : Bytes) : List Nat :=
  let w0 := (List.range 16).map fun j =>
    (getB block (4 * j)) <<< 24 ||| (getB block (4 * j + 1)) <<< 16 |||
    (getB block (4 * j + 2)) <<< 8 ||| getB block (4 * j + 3)
  (List.range 48).foldl
    (fun w t =>
      w ++ [w32 (ssig1 (w.getD (t + 14) 0) + w.getD (t + 9) 0 + ssig0 (w.getD (t + 1) 0) +
                 w.getD t 0)])
    w0

/-- SHA-256 compression of one block. -/
def compress (st : Hash8) (block : Bytes) : Hash8 :=
  let fin := (List.zip k256 (schedule block)).foldl
    (fun v kw =>
      let t1 := w32 (v.h + bsig1 v.e + chF v.e v.f v.g + kw.1 + kw.2)
      let t2 := w32 (bsig0 v.a + majF v.a v.b v.c)
      ⟨w32 (t1 + t2), v.a, v.b, v.c, w32 (v.d + t1), v.e, v.f, v.g⟩)
    st
  ⟨w32 (st.a + fin.a), w32 (st.b + fin.b), w32 (st.c + fin.c), w32 (st.d + fin.d),
   w32 (st.e + fin.e), w32 (st.f + fin.f), w32 (st.g + fin.g), w32 (st.h + fin.h)⟩

/-- 8-byte big-endian encoding. -/
def be64 (n : Nat) : Bytes := (List.range 8).map fun i => (n >>> (8 * (7 - i))) &&& 255

/-- SHA-256 padding: `0x80`, zeros to 56 mod 64, then the bit length. -/
def padMsg (msg : Bytes) : Bytes :=
  msg ++ 0x80 :: (List.replicate ((64 - (msg.length + 9) % 64) % 64) 0 ++ be64 (8 * msg.length))

/-- Big-endian bytes of a 32-bit word. -/
def word4 (w : Nat) : Bytes := [(w >>> 24) &&& 255, (w >>> 16) &&& 255, (w >>> 8) &&& 255, w &&& 255]

/-- SHA-256 digest (32 bytes). -/
def sha256 (msg : Bytes) : Bytes :=
  let p := padMsg msg
  let st := (List.range (p.length / 64)).foldl
    (fun st i => compress st ((p.drop (64 * i)).take 64)) shaInit
  word4 st.a ++ (word4 st.b ++ (word4 st.c ++ (word4 st.d ++
    (word4 st.e ++ (word4 st.f ++ (word4 st.g ++ word4 st.h))))))

/-- HMAC-SHA-256 (Go `crypto/hmac` with `sha256.New`): block size 64. -/
def hmacSHA256 (key msg : Bytes) : Bytes :=
  let k := if key.length > 64 then sha256 key else key
  let k0 := k ++ List.replicate (64 - k.length) 0
  sha256 ((k0.map fun b => b ^^^ 0x5c) ++ sha256 ((k0.map fun b => b ^^^ 0x36) ++ msg))

/-! ## The MILENAGE engine (milenage.go)

A nil Go slice for `OP`/`OPc` is `none`; every other field is a plain byte
list (Go's constructors always allocate them). Pointer-receiver methods
return the updated record. -/

structure Milenage where
  K : Bytes
  OP : Option Bytes
  OPc : Option Bytes
  RAND : Bytes
  SQN : Bytes
  AMF : Bytes
  MACA : Bytes
  MACS : Bytes
  RES : Bytes
  CK : Bytes
  IK : Bytes
  AK : Bytes
  AKS : Bytes
  RESStar : Bytes
deriving DecidableEq

/-- The 6-byte SQN field: `binary.BigEndian.PutUint64` into 8 bytes, of which
bytes 2..7 are kept — i.e. the low 48 bits of `sqn`, big-endian. -/
def sqnBytes (sqn : Nat) : Bytes := (List.range 6).map fun i => (sqn >>> (8 * (5 - i))) &&& 255

/-- The 2-byte AMF field: `uint16` big-endian. -/
def amfBytes (amf : Nat) : Bytes := [(amf >>> 8) &&& 255, amf &&& 255]

/-- `New` constructor. -/
def Milenage.new (k : Bytes) (op : Option Bytes) (rand : Bytes) (sqn amf : Nat) : Milenage :=
  { K := k, OP := op, OPc := none, RAND := rand,
    SQN := sqnBytes sqn, AMF := amfBytes amf,
    MACA := List.replicate 8 0, MACS := List.replicate 8 0, RES := List.replicate 8 0,
    CK := List.replicate 16 0, IK := List.replicate 16 0,
    AK := List.replicate 6 0, AKS := List.replicate 6 0, RESStar := [] }

/-- `NewWithOPc` constructor. -/
def Milenage.newWithOPc (k : Bytes) (opc : Option Bytes) (rand : Bytes) (sqn amf : Nat) :
    Milenage :=
  { K := k, OP := none, OPc := opc, RAND := rand,
    SQN := sqnBytes sqn, AMF := amfBytes amf,
    MACA := List.replicate 8 0, MACS := List.replicate 8 0, RES := List.replicate 8 0,
    CK := List.replicate 16 0, IK := List.replicate 16 0,
    AK := List.replicate 6 0, AKS := List.replicate 6 0, RESStar := [] }

/-- The byte-wise `xor` helper: output length is `len b1` when
`len b1 - len b2 < 0` (signed comparison) and `len b2` otherwise. -/
def xorLen (b1 b2 : Bytes) : Nat :=
  if (b1.length : Int) - (b2.length : Int) < 0 then b1.length else b2.length

/-- `xor` from milenage.go (also exported as `Xor`). -/
def xorB (b1 b2 : Bytes) : Bytes :=
  (List.range (xorLen b1 b2)).map fun i => getB b1 i ^^^ getB b2 i

/-- `validateLength`: `true` means no error. Nil `OP`/`OPc` are skipped. -/
def validateLength (m : Milenage) : Bool :=
  m.K.length == 16 &&
  m.OP.all (fun op => op.length == 16) &&
  m.OPc.all (fun opc => opc.length == 16) &&
  m.RAND.length == 16 && m.SQN.length == 6 && m.AMF.length == 2 &&
  m.MACA.length == 8 && m.MACS.length == 8 && m.RES.length == 8 &&
  m.CK.length == 16 && m.IK.length == 16 && m.AK.length == 6 && m.AKS.length == 6

/-- The copy loop at the end of `computeOPc`: `for i, b := range bytes`, with
`break` when `i > len(dst)` and a write `dst[i] = b` otherwise — which panics
(`none`) when `i = len(dst)`. -/
def opcCopyLoop : Nat → Bytes → Bytes → Option Bytes
  | _, dst, [] => some dst
  | i, dst, b :: rest =>
    if dst.length < i then some dst
    else if i < dst.length then opcCopyLoop (i + 1) (dst.set i b) rest
    else none

/-- `computeOPc` (private method): encrypt `OP` under `K`, xor with `OP`, and
copy the result into the freshly allocated 16-byte `OPc`. -/
def computeOPc (m : Milenage) : Option Milenage :=
  (encrypt m.K (m.OP.getD [])).bind fun cipherText =>
    (opcCopyLoop 0 (List.replicate 16 0) (xorB cipherText (m.OP.getD []))).map
      fun opc => { m with OPc := some opc }

/-- The lazy-OPc step shared by the f-functions: `if m.OPc == nil { computeOPc }`. -/
def ensureOPc (m : Milenage) : Option Milenage :=
  match m.OPc with
  | some _ => some m
  | none => computeOPc m

/-- The effective OPc of an instance whose OPc is populated. -/
def opcOf (m : Milenage) : Bytes := m.OPc.getD []

/-- `ComputeOPc` (public helper): builds a scratch instance and runs
`computeOPc` on it, with no length validation. -/
def ComputeOPc (k : Bytes) (op : Option Bytes) : Option Bytes :=
  (computeOPc (Milenage.new k op (List.replicate 16 0) 0 0)).map opcOf

/-- `rijndaelInput[15] ^= c` after a full fill. -/
def flipLast (c : Nat) (xs : Bytes) : Bytes := xs.set 15 (getB xs 15 ^^^ c)

/-- The body of `f1base` after validation and OPc derivation: the two AES
calls of TS 35.206 f1/f1*. The write `rijndaelInput[(i+8)%16] = in1[i]^OPc[i]`
reads position `(j+8)%16` when producing output position `j`. -/
def f1core (m : Milenage) (sqn amf : Bytes) : Option Bytes :=
  let opc := opcOf m
  (encrypt m.K (rng16 fun i => getB m.RAND i ^^^ getB opc i)).bind fun temp =>
  let in1 := rng16 fun i =>
    if i < 6 then getB sqn i
    else if i < 8 then getB amf (i - 6)
    else if i < 14 then getB sqn (i - 8)
    else getB amf (i - 14)
  let ri := rng16 fun j =>
    (getB in1 ((j + 8) % 16) ^^^ getB opc ((j + 8) % 16)) ^^^ getB temp j
  (encrypt m.K ri).map fun out => xorB out opc

/-- `f1base`: validate, derive OPc if absent, run the kernel. -/
def f1base (m : Milenage) (sqn amf : Bytes) : Option (Bytes × Milenage) :=
  if validateLength m then
    (ensureOPc m).bind fun m1 => (f1core m1 sqn amf).map fun out => (out, m1)
  else none

/-- `F1`: MAC-A is the first 8 bytes of the f1base output; stored in `MACA`. -/
def F1 (m : Milenage) : Option (Bytes × Milenage) :=
  (f1base m m.SQN m.AMF).map fun p => (p.1.take 8, { p.2 with MACA := p.1.take 8 })

/-- `F1Star`: MAC-S is the last 8 bytes of the f1base output; stored in `MACS`. -/
def F1Star (m : Milenage) (sqn amf : Bytes) : Option (Bytes × Milenage) :=
  (f1base m sqn amf).map fun p => (p.1.drop 8, { p.2 with MACS := p.1.drop 8 })

/-- The body of `F2345` after validation and OPc derivation. Each rotation
loop `rijndaelInput[(i+r)%16] = TEMP[i]^OPc[i]` rewrites the whole buffer, so
output position `j` reads position `(j+16-r)%16`. -/
def f2345core (m : Milenage) : Option (Bytes × Bytes × Bytes × Bytes) :=
  let opc := opcOf m
  (encrypt m.K (rng16 fun i => getB m.RAND i ^^^ getB opc i)).bind fun temp =>
  (encrypt m.K (flipLast 1 (rng16 fun i => getB temp i ^^^ getB opc i))).bind fun out2 =>
  let tmp := xorB out2 opc
  (encrypt m.K (flipLast 2 (rng16 fun j =>
      getB temp ((j + 4) % 16) ^^^ getB opc ((j + 4) % 16)))).bind fun out3 =>
  (encrypt m.K (flipLast 4 (rng16 fun j =>
      getB temp ((j + 8) % 16) ^^^ getB opc ((j + 8) % 16)))).map fun out4 =>
  (tmp.drop 8, xorB out3 opc, xorB out4 opc, tmp.take 6)

/-- `F2345`: returns `(RES, CK, IK, AK)` and stores them on the instance. -/
def F2345 (m : Milenage) : Option (Bytes × Bytes × Bytes × Bytes × Milenage) :=
  if validateLength m then
    (ensureOPc m).bind fun m1 => (f2345core m1).map fun r =>
      (r.1, r.2.1, r.2.2.1, r.2.2.2,
       { m1 with RES := r.1, CK := r.2.1, IK := r.2.2.1, AK := r.2.2.2 })
  else none

/-- The body of `F5Star` after validation and OPc derivation (rotation r5 = 96
bits: output position `j` reads position `(j+12)%16`). -/
def f5core (m : Milenage) : Option Bytes :=
  let opc := opcOf m
  (encrypt m.K (rng16 fun i => getB m.RAND i ^^^ getB opc i)).bind fun tmp =>
  (encrypt m.K (flipLast 8 (rng16 fun j =>
      getB tmp ((j + 12) % 16) ^^^ getB opc ((j + 12) % 16)))).map fun out =>
  (xorB out opc).take 6

/-- `F5Star`: AK-S is the first 6 bytes; stored in `AKS`. -/
def F5Star (m : Milenage) : Option (Bytes × Milenage) :=
  if validateLength m then
    (ensureOPc m).bind fun m1 => (f5core m1).map fun aks => (aks, { m1 with AKS := aks })
  else none

/-- `uint16` big-endian length of a byte string (`PutUint16(_, uint16(len b))`,
also `byteArrayLen2B` in the aka package). -/
def len2B (xs : Bytes) : Bytes := [(xs.length % 65536) >>> 8, xs.length % 256]

/-- Go `copy` into an `n`-byte zeroed slot: writes `min n (len xs)` bytes and
leaves the rest zero. -/
def padTo (n : Nat) (xs : Bytes) : Bytes := xs.take n ++ List.replicate (n - xs.length) 0

/-- ASCII bytes of the string constant parts of the SNN. -/
def snnHead : Bytes := [0x35, 0x47, 0x3a, 0x6d, 0x6e, 0x63]

def snnMid : Bytes := [0x2e, 0x6d, 0x63, 0x63]

def snnTail : Bytes :=
  [0x2e, 0x33, 0x67, 0x70, 0x70, 0x6e, 0x65, 0x74, 0x77, 0x6f, 0x72, 0x6b, 0x2e, 0x6f, 0x72, 0x67]

/-- ASCII bytes of the formatted serving network name. -/
def snnOf (mcc mnc3 : Bytes) : Bytes := snnHead ++ mnc3 ++ snnMid ++ mcc ++ snnTail

/-- `ComputeRESStar`: validates, checks MCC/MNC, builds the 32-byte SNN and the
63-byte KDF input `S`, and returns the last 16 bytes of
`HMAC-SHA-256(CK ‖ IK, S)`. The `0x30` prepended to a 2-character MNC is the
ASCII digit zero. The receiver is returned untouched: no field is written. -/
def ComputeRESStar (m : Milenage) (mcc mnc : Bytes) : Option (Bytes × Milenage) :=
  if validateLength m then
    if mcc.length = 3 then
      (if mnc.length = 2 then some (0x30 :: mnc)
       else if mnc.length = 3 then some mnc else none).bind fun mnc3 =>
      let snn := snnOf mcc mnc3
      if snn.length = 32 then
        let b := 0x6b :: (padTo 32 snn ++ len2B snn ++ padTo 16 m.RAND ++ len2B m.RAND ++
                          padTo 8 m.RES ++ len2B m.RES)
        let out := hmacSHA256 (padTo 16 m.CK ++ padTo 16 m.IK) b
        some (out.drop (out.length - 16), m)
      else none
    else none
  else none

/-- `GenerateAUTN`: `(SQN ⊕ AK) ‖ AMF ‖ MAC-A` copied into a zeroed 16-byte
token. -/
def GenerateAUTN (m : Milenage) : Option Bytes :=
  if validateLength m then
    some (padTo 6 (xorB m.SQN m.AK) ++ (padTo 2 m.AMF ++ padTo 8 m.MACA))
  else none

/-- `GenerateAUTS`: recompute MAC-S with a zero AMF and AK-S, then
`(SQN ⊕ AK-S) ‖ MAC-S` in a zeroed 14-byte token. -/
def GenerateAUTS (m : Milenage) : Option (Bytes × Milenage) :=
  if validateLength m then
    (F1Star m m.SQN [0x00, 0x00]).bind fun p =>
    (F5Star p.2).map fun q =>
    (padTo 6 (xorB p.2.SQN q.1) ++ padTo 8 p.1, q.2)
  else none

/-! ## The AKA key schedule (package aka) -/

structure Aka where
  mil : Milenage
  SNN : Bytes
  SUPI : Bytes
  KAUSF : Bytes
  KSEAF : Bytes
  KAMF : Bytes
  HXRESStar : Bytes
deriving DecidableEq

/-- `aka.New`: snapshots the Milenage value; the three keys are zeroed 32-byte
buffers and `HXRESStar` starts nil. -/
def Aka.new (mil : Milenage) (snn supi : Bytes) : Aka :=
  { mil := mil, SNN := snn, SUPI := supi,
    KAUSF := List.replicate 32 0, KSEAF := List.replicate 32 0, KAMF := List.replicate 32 0,
    HXRESStar := [] }

/-- `ComputeKAUSF`: HMAC-SHA-256 keyed with `CK ‖ IK` over
`0x6A ‖ SNN ‖ len(SNN) ‖ (SQN ⊕ AK) ‖ len(SQN ⊕ AK)`. Never fails. -/
def ComputeKAUSF (a : Aka) : Option (Bytes × Aka) :=
  let sqnXorAk := xorB a.mil.SQN a.mil.AK
  let s := 0x6a :: (a.SNN ++ len2B a.SNN ++ sqnXorAk ++ len2B sqnXorAk)
  let kausf := hmacSHA256 (a.mil.CK ++ a.mil.IK) s
  some (kausf, { a with KAUSF := kausf })

/-- `ComputeKSEAF`: HMAC-SHA-256 keyed with the stored KAUSF over
`0x6C ‖ SNN ‖ len(SNN)`. Never fails. -/
def ComputeKSEAF (a : Aka) : Option (Bytes × Aka) :=
  let s := 0x6c :: (a.SNN ++ len2B a.SNN)
  let kseaf := hmacSHA256 a.KAUSF s
  some (kseaf, { a with KSEAF := kseaf })

/-- `ComputeKAMF`: HMAC-SHA-256 keyed with the stored KAUSF over
`0x6D ‖ SUPI ‖ len(SUPI) ‖ 0x0000 ‖ 0x0002`. Never fails. -/
def ComputeKAMF (a : Aka) : Option (Bytes × Aka) :=
  let s := 0x6d :: (a.SUPI ++ len2B a.SUPI ++ [0x00, 0x00] ++ [0x00, 0x02])
  let kamf := hmacSHA256 a.KAUSF s
  some (kamf, { a with KAMF := kamf })

/-- `ComputeHXRESStar`: last 16 bytes of `SHA-256(RAND ‖ RESStar)`, reading the
snapshot's `RESStar` field. Never fails. -/
def ComputeHXRESStar (a : Aka) : Option (Bytes × Aka) :=
  let h := sha256 (a.mil.RAND ++ a.mil.RESStar)
  let hx := h.drop (h.length - 16)
  some (hx, { a with HXRESStar := hx })

/-! ## The demonstration driver (main.go) with its default inputs -/

/-- `00112233445566778899aabbccddeeff`, the default K = OP = RAND. -/
def demoHex : Bytes :=
  [0x00, 0x11, 0x22, 0x33, 0x44, 0x55, 0x66, 0x77, 0x88, 0x99, 0xaa, 0xbb, 0xcc, 0xdd, 0xee, 0xff]

/-- ASCII of IMSI `001010123456789` (the driver's SUPI). -/
def imsiBytes : Bytes :=
  [0x30, 0x30, 0x31, 0x30, 0x31, 0x30, 0x31, 0x32, 0x33, 0x34, 0x35, 0x36, 0x37, 0x38, 0x39]

/-- ASCII of MCC `001` = IMSI[0:3]. -/
def mccBytes : Bytes := [0x30, 0x30, 0x31]

/-- ASCII of MNC `01` = IMSI[3:5]. -/
def mncBytes : Bytes := [0x30, 0x31]

/-- ASCII of the driver's SNN `5G:mnc01.mcc001.3gppnetwork.org` — built by
`fmt.Sprintf` from the raw two-character MNC, hence 31 bytes, unlike the
zero-padded 32-byte SNN inside `ComputeRESStar`. -/
def snnDriverBytes : Bytes :=
  [0x35, 0x47, 0x3a, 0x6d, 0x6e, 0x63, 0x30, 0x31, 0x2e, 0x6d, 0x63, 0x63, 0x30, 0x30, 0x31,
   0x2e, 0x33, 0x67, 0x70, 0x70, 0x6e, 0x65, 0x74, 0x77, 0x6f, 0x72, 0x6b, 0x2e, 0x6f, 0x72,
   0x67]

/-- The driver's derivation chain on the default inputs, in program order:
`ComputeOPc`, `NewWithOPc`, `F1`, `F2345`, `ComputeRESStar` (whose result the
driver assigns to `m.RESStar`), `GenerateAUTN`, then on the Aka snapshot
`ComputeKAUSF`, `ComputeHXRESStar`, `ComputeKSEAF`, `ComputeKAMF`. Returns
`(OPc, MAC-A, CK, IK, AK, xRES, xRES*, AUTN, KAUSF, HXRES*, KSEAF, KAMF)`. -/
def driverRun : Option (Bytes × Bytes × Bytes × Bytes × Bytes × Bytes × Bytes × Bytes ×
    Bytes × Bytes × Bytes × Bytes) :=
  (ComputeOPc demoHex (some demoHex)).bind fun opc =>
  let m := Milenage.newWithOPc demoHex (some opc) demoHex 1 0x8000
  (F1 m).bind fun p1 =>
  (F2345 p1.2).bind fun p2 =>
  (ComputeRESStar p2.2.2.2.2 mccBytes mncBytes).bind fun p3 =>
  let m4 := { p3.2 with RESStar := p3.1 }
  (GenerateAUTN m4).bind fun autn =>
  let a := Aka.new m4 snnDriverBytes imsiBytes
  (ComputeKAUSF a).bind fun q1 =>
  (ComputeHXRESStar q1.2).bind fun q2 =>
  (ComputeKSEAF q2.2).bind fun q3 =>
  (ComputeKAMF q3.2).map fun q4 =>
  (opc, p1.1, p2.2.1, p2.2.2.1, p2.2.2.2.1, p2.1, p3.1, autn, q1.1, q2.1, q3.1, q4.1)

/-! ## The golden outputs of §8 of the specification -/

def goldOPc : Bytes :=
  [0x62, 0xe7, 0x5b, 0x8d, 0x6f, 0xa5, 0xbf, 0x46, 0xec, 0x87, 0xa9, 0x27, 0x6f, 0x9d, 0xf5, 0x4d]

def goldMACA : Bytes := [0x4a, 0xf3, 0x0b, 0x82, 0xa8, 0x53, 0x11, 0x15]

def goldCK : Bytes :=
  [0xb3, 0x79, 0x87, 0x4b, 0x3d, 0x18, 0x3d, 0x2a, 0x21, 0x29, 0x1d, 0x43, 0x9e, 0x77, 0x61, 0xe1]

def goldIK : Bytes :=
  [0xf4, 0x70, 0x6f, 0x66, 0x62, 0x9c, 0xf7, 0xdd, 0xf8, 0x81, 0xd8, 0x00, 0x25, 0xbf, 0x12, 0x55]

def goldAK : Bytes := [0xde, 0x65, 0x6c, 0x8b, 0x0b, 0xce]

def goldRES : Bytes := [0x70, 0x0e, 0xb2, 0x30, 0x0b, 0x2c, 0x47, 0x99]

def goldRESStar : Bytes :=
  [0x31, 0xb6, 0xd9, 0x38, 0xa5, 0x29, 0x0c, 0xcc, 0x65, 0xbc, 0x82, 0x9f, 0x98, 0x20, 0xa8, 0xd9]

def goldAUTN : Bytes :=
  [0xde, 0x65, 0x6c, 0x8b, 0x0b, 0xcf, 0x80, 0x00, 0x4a, 0xf3, 0x0b, 0x82, 0xa8, 0x53, 0x11, 0x15]

def goldKAUSF : Bytes :=
  [0xfe, 0x8d, 0x25, 0x46, 0xb6, 0x97, 0x1c, 0x51, 0x03, 0x29, 0xcd, 0x8a, 0xe3, 0x4c, 0x17, 0x7d,
   0x65, 0x69, 0x48, 0x6a, 0xa9, 0xb7, 0x11, 0x59, 0xcc, 0x3b, 0x5c, 0x75, 0x2a, 0x93, 0xbd, 0x10]

def goldHXRESStar : Bytes :=
  [0x33, 0x08, 0xfb, 0x7c, 0xf0, 0x6a, 0x35, 0xf1, 0xcd, 0x08, 0x6b, 0x90, 0x4c, 0xe8, 0x2e, 0xcf]

def goldKSEAF : Bytes :=
  [0x44, 0x2a, 0xc7, 0x7e, 0x23, 0x66, 0xd8, 0x08, 0x4c, 0xb4, 0x47, 0x88, 0x3b, 0x03, 0x31, 0x10,
   0x65, 0xea, 0x6b, 0xbd, 0x87, 0x53, 0xcf, 0x87, 0xe9, 0x2c, 0x06, 0x69, 0x01, 0x9c, 0xf8, 0x29]

def goldKAMF : Bytes :=
  [0xe0, 0xc0, 0x7a, 0xac, 0xbb, 0xa7, 0xd7, 0x7a, 0xd5, 0x5e, 0xfa, 0x30, 0x98, 0x82, 0x96, 0x3a,
   0x9d, 0x46, 0xdb, 0xc9, 0xf0, 0x04, 0x50, 0x26, 0xdf, 0x89, 0xa5, 0xd9, 0xa3, 0x0d, 0x99, 0x15]

/-! ## Statement-side definitions, written from the specification's wording -/

/-- The length table of §3 of the specification, for the fields of a
`Milenage` value (nil `OP`/`OPc` are permitted, as the table marks OP
optional and OPc derivable). -/
def tableOK (m : Milenage) : Prop :=
  m.K.length = 16 ∧ (∀ op ∈ m.OP, op.length = 16) ∧ (∀ opc ∈ m.OPc, opc.length = 16) ∧
  m.RAND.length = 16 ∧ m.SQN.length = 6 ∧ m.AMF.length = 2 ∧ m.MACA.length = 8 ∧
  m.MACS.length = 8 ∧ m.RES.length = 8 ∧ m.CK.length = 16 ∧ m.IK.length = 16 ∧
  m.AK.length = 6 ∧ m.AKS.length = 6

/-- Specification §4.7: `AUTN = (SQN ⊕ AK) ‖ AMF ‖ MAC-A`. -/
def autnSpec (m : Milenage) : Bytes := xorB m.SQN m.AK ++ (m.AMF ++ m.MACA)

/-- Specification §4.10 KAMF input string:
`FC = 0x6D ‖ SUPI ‖ len(SUPI) ‖ ABBA = 0x0000 ‖ 0x0002`. -/
def kamfMsg (a : Aka) : Bytes := 0x6d :: (a.SUPI ++ len2B a.SUPI ++ [0x00, 0x00] ++ [0x00, 0x02])

/-- The effective OPc of an instance as the claims describe it: the stored
OPc when present, otherwise `AES(K, OP) ⊕ OP` derived from the stored OP. -/
def opcSpec (m : Milenage) : Bytes :=
  match m.OPc with
  | some o => o
  | none => xorB (aesBlock m.K (m.OP.getD [])) (m.OP.getD [])

/-- `TEMP = AES(K, RAND ⊕ OPc)` (§4.4/§4.5 of the specification). -/
def tempSpec (m : Milenage) : Bytes := aesBlock m.K (xorB m.RAND (opcSpec m))

/-- Byte rotation of a 16-byte block, phrased as the claims do: the byte at
input index `i` is placed at output index `(i + r) % 16`, so output index `j`
reads input index `(j + 16 - r) % 16`. -/
def rotPlace (r : Nat) (src : Bytes) : Bytes := rng16 fun j => getB src ((j + (16 - r)) % 16)

/-- `OUT2 = AES(K, (TEMP ⊕ OPc) with byte 15 bit 0 flipped) ⊕ OPc` (§4.5). -/
def out2Spec (m : Milenage) : Bytes :=
  xorB (aesBlock m.K (flipLast 1 (xorB (tempSpec m) (opcSpec m)))) (opcSpec m)

/-- `CK` per §4.5: rotation r3 = 32 bits (`(i+12) mod 16`), constant 0x02. -/
def ckSpec (m : Milenage) : Bytes :=
  xorB (aesBlock m.K (flipLast 2 (rotPlace 12 (xorB (tempSpec m) (opcSpec m))))) (opcSpec m)

/-- `IK` per §4.5: rotation r4 = 64 bits (`(i+8) mod 16`), constant 0x04. -/
def ikSpec (m : Milenage) : Bytes :=
  xorB (aesBlock m.K (flipLast 4 (rotPlace 8 (xorB (tempSpec m) (opcSpec m))))) (opcSpec m)

/-- `IN1` per §4.4: bytes 0..5 = SQN, 6..7 = AMF, 8..13 = SQN, 14..15 = AMF. -/
def in1Spec (sqn amf : Bytes) : Bytes := sqn ++ amf ++ sqn ++ amf

/-- `OUT1 = AES(K, rot64(IN1 ⊕ OPc) ⊕ TEMP) ⊕ OPc` (§4.4). -/
def out1Spec (m : Milenage) (sqn amf : Bytes) : Bytes :=
  xorB (aesBlock m.K (xorB (rotPlace 8 (xorB (in1Spec sqn amf) (opcSpec m))) (tempSpec m)))
    (opcSpec m)

/-- Zero-padding of a two-digit MNC as §4.9 describes it. -/
def mncPad (mnc : Bytes) : Bytes := if mnc.length = 2 then 0x30 :: mnc else mnc

/-- The 63-byte RES* KDF input S of §4.9. -/
def resStarMsg (m : Milenage) (mcc mnc : Bytes) : Bytes :=
  0x6b :: (snnOf mcc (mncPad mnc) ++ [0x00, 0x20] ++ m.RAND ++ [0x00, 0x10] ++ m.RES ++
    [0x00, 0x08])

/-- RES* per §4.9: the last 16 bytes of `HMAC-SHA-256(CK ‖ IK, S)`. -/
def resStarSpec (m : Milenage) (mcc mnc : Bytes) : Bytes :=
  (hmacSHA256 (m.CK ++ m.IK) (resStarMsg m mcc mnc)).drop 16

/-! ## Concrete witness instances -/

/-- A valid instance with every field zero (OP and OPc nil except where
noted); used to instantiate the universally quantified theorems. -/
def mZero : Milenage :=
  { K := List.replicate 16 0, OP := none, OPc := none, RAND := List.replicate 16 0,
    SQN := List.replicate 6 0, AMF := List.replicate 2 0,
    MACA := List.replicate 8 0, MACS := List.replicate 8 0, RES := List.replicate 8 0,
    CK := List.replicate 16 0, IK := List.replicate 16 0,
    AK := List.replicate 6 0, AKS := List.replicate 6 0, RESStar := [] }

/-- `mZero` with the OPc field populated (with zeros). -/
def mZeroOPc : Milenage := { mZero with OPc := some (List.replicate 16 0) }

/-- The RES* value of `mZero` for MCC 001, MNC 01. -/
def rZero : Bytes :=
  [0xdb, 0x98, 0x1c, 0x5b, 0xc2, 0x5b, 0x1f, 0x52, 0x8e, 0x50, 0x26, 0xee, 0x74, 0xf1, 0xae, 0x6c]

/-- An instance violating every row of the length table. -/
def mBad : Milenage :=
  { K := [], OP := none, OPc := none, RAND := [], SQN := [], AMF := [], MACA := [], MACS := [],
    RES := [], CK := [], IK := [], AK := [], AKS := [], RESStar := [] }

/-- An Aka snapshot of the invalid instance `mBad`. -/
def akaBad : Aka := Aka.new mBad [] []

end FiveG

namespace FiveG

set_option maxRecDepth 100000 in
set_option maxHeartbeats 2000000 in
/-- C1: on the canonical inputs (IMSI 001010123456789, K = OP = RAND =
00112233445566778899aabbccddeeff, SQN = 1, AMF = 0x8000) the driver's
end-to-end derivation chain yields exactly the twelve golden values of the
specification: OPc, MAC-A, CK, IK, AK, xRES, xRES*, AUTN, KAUSF, HXRES*,
KSEAF and KAMF. -/
theorem c1_golden_vector :
    driverRun = some (goldOPc, goldMACA, goldCK, goldIK, goldAK, goldRES, goldRESStar,
      goldAUTN, goldKAUSF, goldHXRESStar, goldKSEAF, goldKAMF) := by
  rfl

/-! ## Supporting lemmas -/

theorem rng16_length (f : Nat → Nat) : (rng16 f).length = 16 := by
  simp [rng16]

theorem getD_range_map (f : Nat → Nat) {n i : Nat} (d : Nat) (h : i < n) :
    ((List.range n).map f).getD i d = f i := by
  simp [List.getD_eq_getElem?_getD, List.getElem?_map, List.getElem?_range, h]

theorem getB_rng16 (f : Nat → Nat) {i : Nat} (h : i < 16) : getB (rng16 f) i = f i :=
  getD_range_map f 0 h

theorem range_map_getB {xs : Bytes} {n : Nat} (h : xs.length = n) :
    (List.range n).map (fun i => getB xs i) = xs := by
  apply List.ext_getElem (by simp [h])
  intro i h1 h2
  simp only [List.getElem_map, List.getElem_range, getB, List.getD_eq_getElem xs 0 h2]

theorem xorLen_eq_min (a b : Bytes) : xorLen a b = min a.length b.length := by
  simp only [xorLen]
  split <;> omega

theorem xorB_spec (a b : Bytes) :
    xorB a b = (List.range (min a.length b.length)).map (fun i => getB a i ^^^ getB b i) := by
  rw [xorB, xorLen_eq_min]

theorem xorB_length (a b : Bytes) : (xorB a b).length = min a.length b.length := by
  simp [xorB_spec]

theorem getB_xorB {a b : Bytes} {i : Nat} (h : i < min a.length b.length) :
    getB (xorB a b) i = getB a i ^^^ getB b i := by
  rw [xorB_spec]
  exact getD_range_map _ 0 h

theorem xorB_cancel {a b : Bytes} (h : a.length = b.length) : xorB (xorB a b) b = a := by
  rw [xorB_spec, xorB_length, h, Nat.min_self, Nat.min_self]
  have he : ∀ i ∈ List.range b.length, getB (xorB a b) i ^^^ getB b i = getB a i := by
    intro i hi
    rw [List.mem_range] at hi
    rw [getB_xorB (by rw [h, Nat.min_self]; exact hi), Nat.xor_cancel_right]
  rw [List.map_congr_left he, range_map_getB (h ▸ rfl)]

theorem padTo_self {n : Nat} {xs : Bytes} (h : xs.length = n) : padTo n xs = xs := by
  subst h
  simp [padTo]

theorem aesBlock_length (k p : Bytes) : (aesBlock k p).length = 16 := by
  simp [aesBlock, addRoundKey, rng16]

theorem encrypt_sixteen {k p : Bytes} (hk : k.length = 16) (hp : p.length = 16) :
    encrypt k p = some (aesBlock k p) := by
  simp [encrypt, hk, hp, List.take_of_length_le (le_of_eq hp)]

theorem sha256_length (msg : Bytes) : (sha256 msg).length = 32 := by
  simp [sha256, word4]

theorem hmacSHA256_length (k m : Bytes) : (hmacSHA256 k m).length = 32 := by
  simp [hmacSHA256, sha256_length]

theorem opcCopyLoop_full :
    ∀ (bs : Bytes) (i : Nat) (dst : Bytes), i + bs.length = dst.length →
      opcCopyLoop i dst bs = some (dst.take i ++ bs) := by
  intro bs
  induction bs with
  | nil =>
    intro i dst h
    simp only [List.length_nil, Nat.add_zero] at h
    simp [opcCopyLoop, h, List.take_length]
  | cons b rest ih =>
    intro i dst h
    have hi : i < dst.length := by simp at h; omega
    rw [opcCopyLoop, if_neg (by omega), if_pos (by omega)]
    rw [ih (i + 1) (dst.set i b) (by simp at h ⊢; omega)]
    have hset : (dst.set i b).take (i + 1) = dst.take i ++ [b] := by
      have hA : (dst.take i).length = i := by
        simp [List.length_take, Nat.min_eq_left (Nat.le_of_lt hi)]
      rw [List.set_eq_take_cons_drop b hi, List.take_succ, List.take_left' hA,
          List.getElem?_append_right (le_of_eq hA)]
      simp [hA]
    rw [hset]
    simp

theorem computeOPc_eq {m : Milenage} {op : Bytes} (hk : m.K.length = 16)
    (hOP : m.OP = some op) (hop : op.length = 16) :
    computeOPc m = some { m with OPc := some (xorB (aesBlock m.K op) op) } := by
  unfold computeOPc
  rw [hOP]
  simp only [Option.getD_some]
  rw [encrypt_sixteen hk hop]
  simp only [Option.some_bind]
  rw [opcCopyLoop_full _ 0 _
    (by simp [xorB_length, aesBlock_length, hop])]
  simp

theorem validateLength_true {m : Milenage} (h : validateLength m = true) :
    m.K.length = 16 ∧ m.RAND.length = 16 ∧ m.SQN.length = 6 ∧ m.AMF.length = 2 ∧
    m.MACA.length = 8 ∧ m.MACS.length = 8 ∧ m.RES.length = 8 ∧ m.CK.length = 16 ∧
    m.IK.length = 16 ∧ m.AK.length = 6 ∧ m.AKS.length = 6 := by
  simp only [validateLength, Bool.and_eq_true, beq_iff_eq] at h
  tauto

theorem validateLength_OPc {m : Milenage} (h : validateLength m = true) {opc : Bytes}
    (ho : m.OPc = some opc) : opc.length = 16 := by
  simp only [validateLength, Bool.and_eq_true, beq_iff_eq, ho, Option.all_some] at h
  tauto

theorem validateLength_OP {m : Milenage} (h : validateLength m = true) {op : Bytes}
    (ho : m.OP = some op) : op.length = 16 := by
  simp only [validateLength, Bool.and_eq_true, beq_iff_eq, ho, Option.all_some] at h
  tauto

theorem validateLength_iff (m : Milenage) : validateLength m = true ↔ tableOK m := by
  cases hOP : m.OP <;> cases hOPc : m.OPc <;>
    simp [validateLength, tableOK, hOP, hOPc, Bool.and_eq_true, beq_iff_eq, and_assoc]

theorem encrypt_some_length {k p c : Bytes} (h : encrypt k p = some c) : c.length = p.length := by
  unfold encrypt at h
  split at h
  · exact absurd h (by simp)
  · split at h
    · exact absurd h (by simp)
    · simp only [Option.some.injEq] at h
      subst h
      simp only [List.length_append, List.length_replicate, aesBlock_length]
      omega

theorem opcOf_length {m : Milenage} {o : Bytes} (ho : m.OPc = some o) (hl : o.length = 16) :
    (opcOf m).length = 16 := by
  rw [opcOf, ho, Option.getD_some, hl]

theorem f1core_some_length {m : Milenage} {s a v : Bytes} (h : f1core m s a = some v)
    (hopc : (opcOf m).length = 16) : v.length = 16 := by
  simp only [f1core] at h
  rcases h1 : encrypt m.K (rng16 fun i => getB m.RAND i ^^^ getB (opcOf m) i) with _ | temp <;>
    rw [h1] at h
  · exact absurd h (by simp)
  · simp only [Option.some_bind, Option.map_eq_some'] at h
    obtain ⟨out, hout, hv⟩ := h
    have hol : out.length = 16 := by
      rw [encrypt_some_length hout, rng16_length]
    rw [← hv, xorB_length, hol, hopc, Nat.min_self]

theorem f5core_some_length {m : Milenage} {v : Bytes} (h : f5core m = some v)
    (hopc : (opcOf m).length = 16) : v.length = 6 := by
  simp only [f5core] at h
  rcases h1 : encrypt m.K (rng16 fun i => getB m.RAND i ^^^ getB (opcOf m) i) with _ | tmp <;>
    rw [h1] at h
  · exact absurd h (by simp)
  · simp only [Option.some_bind, Option.map_eq_some'] at h
    obtain ⟨out, hout, hv⟩ := h
    have hol : out.length = 16 := by
      rw [encrypt_some_length hout, flipLast, List.length_set, rng16_length]
    rw [← hv, List.length_take, xorB_length, hol, hopc]
    omega

theorem ensureOPc_some {m m1 : Milenage} (hv : validateLength m = true)
    (hden : m.OPc.isSome = true ∨ m.OP.isSome = true) (he : ensureOPc m = some m1) :
    validateLength m1 = true ∧ m1.OPc = some (opcSpec m) ∧ (opcSpec m).length = 16 ∧
    m1 = { m with OPc := some (opcSpec m) } := by
  rcases ho : m.OPc with _ | o
  · rcases hop : m.OP with _ | op
    · rw [ho, hop] at hden
      simp at hden
    · have hk : m.K.length = 16 := (validateLength_true hv).1
      have hol : op.length = 16 := validateLength_OP hv hop
      have hspec : opcSpec m = xorB (aesBlock m.K op) op := by
        rw [opcSpec, ho, hop, Option.getD_some]
      have hm1 : m1 = { m with OPc := some (xorB (aesBlock m.K op) op) } := by
        have := he
        rw [ensureOPc, ho, computeOPc_eq hk hop hol] at this
        exact (Option.some.injEq _ _ ▸ this).symm
      have hlen : (xorB (aesBlock m.K op) op).length = 16 := by
        rw [xorB_length, aesBlock_length, hol, Nat.min_self]
      refine ⟨?_, ?_, ?_, ?_⟩
      · rw [validateLength_iff] at hv ⊢
        rw [hm1]
        obtain ⟨h1, h2, h3, h4⟩ := hv
        exact ⟨h1, h2, by simpa using hlen, h4⟩
      · rw [hm1, hspec]
      · rw [hspec]; exact hlen
      · rw [hm1, hspec, hop]
  · have hm1 : m1 = m := by
      rw [ensureOPc, ho] at he
      exact (Option.some.injEq _ _ ▸ he).symm
    have hspec : opcSpec m = o := by rw [opcSpec, ho]
    refine ⟨hm1 ▸ hv, ?_, ?_, ?_⟩
    · rw [hm1, ho, hspec]
    · rw [hspec]; exact validateLength_OPc hv ho
    · rw [hm1, hspec, ← ho]

theorem validate_set_MACS {m : Milenage} (hv : validateLength m = true) {v : Bytes}
    (hl : v.length = 8) : validateLength { m with MACS := v } = true := by
  rw [validateLength_iff] at hv ⊢
  obtain ⟨h1, h2, h3, h4, h5, h6, h7, h8, h9⟩ := hv
  exact ⟨h1, h2, h3, h4, h5, h6, h7, hl, h9⟩

theorem F1_value {m m1 : Milenage} (hv : validateLength m = true)
    (he : ensureOPc m = some m1) :
    (F1 m).map Prod.fst = (f1core m1 m.SQN m.AMF).map (fun out => out.take 8) := by
  simp only [F1, f1base, hv, if_true, he, Option.some_bind]
  cases f1core m1 m.SQN m.AMF <;> rfl

theorem F1Star_value {m m1 : Milenage} (hv : validateLength m = true)
    (he : ensureOPc m = some m1) (s a : Bytes) :
    (F1Star m s a).map Prod.fst = (f1core m1 s a).map (fun out => out.drop 8) := by
  simp only [F1Star, f1base, hv, if_true, he, Option.some_bind]
  cases f1core m1 s a <;> rfl

theorem F2345_value {m m1 : Milenage} (hv : validateLength m = true)
    (he : ensureOPc m = some m1) :
    (F2345 m).map (fun r => (r.1, r.2.1, r.2.2.1, r.2.2.2.1)) = f2345core m1 := by
  simp only [F2345, hv, if_true, he, Option.some_bind]
  cases f2345core m1 <;> rfl

theorem F5Star_value {m m1 : Milenage} (hv : validateLength m = true)
    (he : ensureOPc m = some m1) :
    (F5Star m).map Prod.fst = f5core m1 := by
  simp only [F5Star, hv, if_true, he, Option.some_bind]
  cases f5core m1 <;> rfl

theorem GenerateAUTS_value {m m1 : Milenage} (hv : validateLength m = true)
    (hden : m.OPc.isSome = true ∨ m.OP.isSome = true) (he : ensureOPc m = some m1) :
    (GenerateAUTS m).map Prod.fst =
      (f1core m1 m.SQN [0x00, 0x00]).bind fun o1 =>
      (f5core { m1 with MACS := o1.drop 8 }).map fun aks =>
        padTo 6 (xorB m1.SQN aks) ++ padTo 8 (o1.drop 8) := by
  obtain ⟨hv1, hOPc1, hol, -⟩ := ensureOPc_some hv hden he
  simp only [GenerateAUTS, hv, if_true, F1Star, f1base, he, Option.some_bind]
  rcases h1 : f1core m1 m.SQN [0x00, 0x00] with _ | o1
  · rfl
  · have ho1 : o1.length = 16 := f1core_some_length h1 (opcOf_length hOPc1 hol)
    have hv2 : validateLength { m1 with MACS := o1.drop 8 } = true :=
      validate_set_MACS hv1 (by rw [List.length_drop, ho1])
    have he2 : ensureOPc { m1 with MACS := o1.drop 8 } = some { m1 with MACS := o1.drop 8 } := by
      rw [ensureOPc]
      have : ({ m1 with MACS := o1.drop 8 } : Milenage).OPc = some (opcSpec m) := hOPc1
      rw [this]
    simp only [Option.map_some', Option.some_bind, F5Star, hv2, eq_self_iff_true, if_true, he2]
    cases hx : f5core { m1 with MACS := o1.drop 8 } <;> rfl

theorem rng16_congr {f g : Nat → Nat} (h : ∀ i, i < 16 → f i = g i) : rng16 f = rng16 g :=
  List.map_congr_left fun i hi => h i (List.mem_range.mp hi)

theorem xorB_as_rng16 {a b : Bytes} (ha : a.length = 16) (hb : b.length = 16) :
    xorB a b = rng16 fun i => getB a i ^^^ getB b i := by
  rw [xorB_spec, ha, hb, Nat.min_self, rng16]

theorem getB_xorB16 {a b : Bytes} (ha : a.length = 16) (hb : b.length = 16) {i : Nat}
    (h : i < 16) : getB (xorB a b) i = getB a i ^^^ getB b i :=
  getB_xorB (by rw [ha, hb, Nat.min_self]; exact h)

theorem flipLast_length (c : Nat) (xs : Bytes) : (flipLast c xs).length = xs.length := by
  simp [flipLast]

theorem rotPlace_length (r : Nat) (xs : Bytes) : (rotPlace r xs).length = 16 := by
  simp [rotPlace, rng16]

theorem rng16_rot_xor {T opc : Bytes} (hT : T.length = 16) (hopc : opc.length = 16) {r k : Nat}
    (hk : 16 - r = k) :
    (rng16 fun j => getB T ((j + k) % 16) ^^^ getB opc ((j + k) % 16)) =
      rotPlace r (xorB T opc) := by
  simp only [rotPlace, hk]
  apply rng16_congr
  intro j hj
  rw [getB_xorB16 hT hopc (Nat.mod_lt _ (by norm_num))]

theorem in1_embed_eq {sqn amf : Bytes} (hs : sqn.length = 6) (ha : amf.length = 2) :
    (rng16 fun i => if i < 6 then getB sqn i else if i < 8 then getB amf (i - 6)
      else if i < 14 then getB sqn (i - 8) else getB amf (i - 14)) = in1Spec sqn amf := by
  have hlen : (in1Spec sqn amf).length = 16 := by simp [in1Spec, hs, ha]
  rw [← range_map_getB hlen]
  apply rng16_congr
  intro i hi
  simp only [in1Spec, List.append_assoc]
  by_cases h6 : i < 6
  · rw [if_pos h6, getB, getB, List.getD_append _ _ _ _ (by omega)]
  · by_cases h8 : i < 8
    · rw [if_neg h6, if_pos h8, getB, getB,
        List.getD_append_right _ _ _ _ (by omega),
        List.getD_append _ _ _ _ (by omega)]
      congr 1
      omega
    · by_cases h14 : i < 14
      · rw [if_neg h6, if_neg h8, if_pos h14, getB, getB,
          List.getD_append_right _ _ _ _ (by omega),
          List.getD_append_right _ _ _ _ (by omega),
          List.getD_append _ _ _ _ (by omega)]
        congr 1
        omega
      · rw [if_neg h6, if_neg h8, if_neg h14, getB, getB,
          List.getD_append_right _ _ _ _ (by omega),
          List.getD_append_right _ _ _ _ (by omega),
          List.getD_append_right _ _ _ _ (by omega)]
        congr 1
        omega

theorem f2345core_eq {m : Milenage} {opc : Bytes} (hOPc : m.OPc = some opc)
    (hK : m.K.length = 16) (hR : m.RAND.length = 16) (hopc : opc.length = 16) :
    f2345core m = some ((out2Spec m).drop 8, ckSpec m, ikSpec m, (out2Spec m).take 6) := by
  have hov : opcOf m = opc := by rw [opcOf, hOPc, Option.getD_some]
  have hspec : opcSpec m = opc := by simp only [opcSpec, hOPc]
  simp only [f2345core, hov]
  rw [← xorB_as_rng16 hR hopc,
    encrypt_sixteen hK (by rw [xorB_length, hR, hopc, Nat.min_self])]
  simp only [Option.some_bind]
  set T := aesBlock m.K (xorB m.RAND opc) with hT
  have hTl : T.length = 16 := aesBlock_length _ _
  rw [← xorB_as_rng16 hTl hopc,
    encrypt_sixteen hK (by rw [flipLast_length, xorB_length, hTl, hopc, Nat.min_self])]
  simp only [Option.some_bind]
  rw [rng16_rot_xor hTl hopc (by norm_num : 16 - 12 = 4),
    encrypt_sixteen hK (by rw [flipLast_length, rotPlace_length])]
  simp only [Option.some_bind]
  rw [rng16_rot_xor hTl hopc (by norm_num : 16 - 8 = 8),
    encrypt_sixteen hK (by rw [flipLast_length, rotPlace_length])]
  simp only [Option.map_some']
  simp only [out2Spec, ckSpec, ikSpec, tempSpec, hspec, ← hT]

theorem f1core_eq {m : Milenage} {opc : Bytes} (hOPc : m.OPc = some opc)
    (hK : m.K.length = 16) (hR : m.RAND.length = 16) (hopc : opc.length = 16)
    {sqn amf : Bytes} (hs : sqn.length = 6) (ha : amf.length = 2) :
    f1core m sqn amf = some (out1Spec m sqn amf) := by
  have hov : opcOf m = opc := by rw [opcOf, hOPc, Option.getD_some]
  have hspec : opcSpec m = opc := by simp only [opcSpec, hOPc]
  simp only [f1core, hov]
  rw [← xorB_as_rng16 hR hopc,
    encrypt_sixteen hK (by rw [xorB_length, hR, hopc, Nat.min_self])]
  simp only [Option.some_bind]
  set T := aesBlock m.K (xorB m.RAND opc) with hT
  have hTl : T.length = 16 := aesBlock_length _ _
  rw [in1_embed_eq hs ha]
  have hin1l : (in1Spec sqn amf).length = 16 := by simp [in1Spec, hs, ha]
  have hri : (rng16 fun j =>
      getB (in1Spec sqn amf) ((j + 8) % 16) ^^^ getB opc ((j + 8) % 16) ^^^ getB T j) =
      xorB (rotPlace 8 (xorB (in1Spec sqn amf) opc)) T := by
    rw [xorB_as_rng16 (rotPlace_length 8 _) hTl]
    apply rng16_congr
    intro j hj
    simp only [rotPlace]
    rw [getB_rng16 _ hj]
    norm_num
    rw [getB_xorB16 hin1l hopc (Nat.mod_lt _ (by norm_num))]
  rw [hri,
    encrypt_sixteen hK (by rw [xorB_length, rotPlace_length, hTl, Nat.min_self])]
  simp only [Option.map_some']
  simp only [out1Spec, tempSpec, hspec, ← hT]

theorem mncPad_length {mnc : Bytes} (h : mnc.length = 2 ∨ mnc.length = 3) :
    (mncPad mnc).length = 3 := by
  rcases h with h2 | h2
  · simp [mncPad, h2]
  · have hne : ¬ mnc.length = 2 := by omega
    simp [mncPad, hne, h2]

theorem snnOf_length32 {mcc mnc3 : Bytes} (h3 : mcc.length = 3) (hm : mnc3.length = 3) :
    (snnOf mcc mnc3).length = 32 := by
  simp [snnOf, snnHead, snnMid, snnTail, h3, hm]

theorem computeRESStar_eq (m : Milenage) (mcc mnc : Bytes) (hv : validateLength m = true) :
    ComputeRESStar m mcc mnc =
      if mcc.length = 3 ∧ (mnc.length = 2 ∨ mnc.length = 3)
      then some (resStarSpec m mcc mnc, m) else none := by
  obtain ⟨-, hRAND, -, -, -, -, hRES, hCK, hIK, -, -⟩ := validateLength_true hv
  by_cases h3 : mcc.length = 3
  · by_cases hm : mnc.length = 2 ∨ mnc.length = 3
    · have hmnc3 := mncPad_length hm
      have hsnn := snnOf_length32 h3 hmnc3
      have hopt : (if mnc.length = 2 then some (0x30 :: mnc)
          else if mnc.length = 3 then some mnc else none) = some (mncPad mnc) := by
        rcases hm with h2 | h2
        · simp [mncPad, h2]
        · have hne : ¬ mnc.length = 2 := by omega
          simp [mncPad, hne, h2]
      rw [if_pos ⟨h3, hm⟩]
      simp only [ComputeRESStar]
      rw [if_pos hv, if_pos h3, hopt]
      simp only [Option.some_bind]
      rw [if_pos hsnn]
      rw [padTo_self hsnn, padTo_self hRAND, padTo_self hRES, padTo_self hCK, padTo_self hIK]
      have hl1 : len2B (snnOf mcc (mncPad mnc)) = [0x00, 0x20] := by simp [len2B, hsnn]
      have hl2 : len2B m.RAND = [0x00, 0x10] := by simp [len2B, hRAND]
      have hl3 : len2B m.RES = [0x00, 0x08] := by simp [len2B, hRES]
      rw [hl1, hl2, hl3]
      simp only [resStarSpec, resStarMsg]
      rw [hmacSHA256_length]
    · rw [if_neg (by tauto)]
      obtain ⟨hn2, hn3⟩ := not_or.mp hm
      simp only [ComputeRESStar]
      rw [if_pos hv, if_pos h3, if_neg hn2, if_neg hn3]
      simp
  · rw [if_neg (by tauto)]
    simp only [ComputeRESStar]
    rw [if_pos hv, if_neg h3]

/-! ## Claims C5, C6, C8, C9, C10 -/

/-- C5 counterexample: the claim asserts that every entry point, including the
AKA-layer derivations, fails fast on a length violation; but on an Aka
snapshot whose SQN has length 0 (not 6 as tabled) all four AKA derivations
still return a result. -/
theorem c5_counterexample :
    akaBad.mil.SQN.length ≠ 6 ∧
    (ComputeKAUSF akaBad).isSome = true ∧ (ComputeKSEAF akaBad).isSome = true ∧
    (ComputeKAMF akaBad).isSome = true ∧ (ComputeHXRESStar akaBad).isSome = true :=
  ⟨by decide, rfl, rfl, rfl, rfl⟩

/-- C5 (amended): the Milenage-layer operations fail fast with no result
whenever any fixed-width field violates the length table, but the AKA-layer
derivations perform no length validation and always return a result. -/
theorem c5_length_validation (m : Milenage) (hm : ¬ tableOK m) (sqn amf mcc mnc : Bytes)
    (a : Aka) :
    F1 m = none ∧ F1Star m sqn amf = none ∧ F2345 m = none ∧ F5Star m = none ∧
    ComputeRESStar m mcc mnc = none ∧ GenerateAUTN m = none ∧ GenerateAUTS m = none ∧
    (ComputeKAUSF a).isSome = true ∧ (ComputeKSEAF a).isSome = true ∧
    (ComputeKAMF a).isSome = true ∧ (ComputeHXRESStar a).isSome = true := by
  have hv : validateLength m = false := by
    cases hvt : validateLength m
    · rfl
    · exact absurd ((validateLength_iff m).1 hvt) hm
  refine ⟨?_, ?_, ?_, ?_, ?_, ?_, ?_, rfl, rfl, rfl, rfl⟩ <;>
    simp [F1, F1Star, f1base, F2345, F5Star, ComputeRESStar, GenerateAUTN, GenerateAUTS, hv]

/-- C5 witness: the amended statement instantiated at the all-invalid
instance `mBad` and the snapshot `akaBad`. -/
theorem c5_length_validation_witness :
    F1 mBad = none ∧ F1Star mBad [] [] = none ∧ F2345 mBad = none ∧ F5Star mBad = none ∧
    ComputeRESStar mBad [] [] = none ∧ GenerateAUTN mBad = none ∧ GenerateAUTS mBad = none ∧
    (ComputeKAUSF akaBad).isSome = true ∧ (ComputeKSEAF akaBad).isSome = true ∧
    (ComputeKAMF akaBad).isSome = true ∧ (ComputeHXRESStar akaBad).isSome = true :=
  c5_length_validation mBad (by simp [tableOK, mBad]) [] [] [] [] akaBad

/-- C6: on a validated instance `GenerateAUTN` succeeds with the 16-byte token
`(SQN ⊕ AK) ‖ AMF ‖ MAC-A`, whose first six bytes xored with AK give back SQN,
whose bytes 6..8 are AMF, and whose bytes 8..16 are MAC-A. -/
theorem c6_generateAUTN (m : Milenage) (hv : validateLength m = true) :
    GenerateAUTN m = some (autnSpec m) ∧ (autnSpec m).length = 16 ∧
    xorB ((autnSpec m).take 6) m.AK = m.SQN ∧
    ((autnSpec m).drop 6).take 2 = m.AMF ∧ (autnSpec m).drop 8 = m.MACA := by
  obtain ⟨-, -, hSQN, hAMF, hMACA, -, -, -, -, hAK, -⟩ := validateLength_true hv
  have hsa : m.SQN.length = m.AK.length := by rw [hSQN, hAK]
  have hxlen : (xorB m.SQN m.AK).length = 6 := by rw [xorB_length, hSQN, hAK, Nat.min_self]
  have htake : (autnSpec m).take 6 = xorB m.SQN m.AK := List.take_left' hxlen
  have hdrop : (autnSpec m).drop 6 = m.AMF ++ m.MACA := List.drop_left' hxlen
  refine ⟨?_, ?_, ?_, ?_, ?_⟩
  · simp only [GenerateAUTN, hv, if_true]
    rw [padTo_self hxlen, padTo_self hAMF, padTo_self hMACA]
    rfl
  · simp [autnSpec, hxlen, hAMF, hMACA]
  · rw [htake, xorB_cancel hsa]
  · rw [hdrop, List.take_left' hAMF]
  · rw [autnSpec, ← List.append_assoc]
    exact List.drop_left' (by simp [hxlen, hAMF])

/-- C6 witness: the theorem applied to the valid all-zero instance. -/
theorem c6_generateAUTN_witness :
    GenerateAUTN mZero = some (autnSpec mZero) ∧ (autnSpec mZero).length = 16 ∧
    xorB ((autnSpec mZero).take 6) mZero.AK = mZero.SQN ∧
    ((autnSpec mZero).drop 6).take 2 = mZero.AMF ∧ (autnSpec mZero).drop 8 = mZero.MACA :=
  c6_generateAUTN mZero (by decide)

theorem sqnBytes_length (n : Nat) : (sqnBytes n).length = 6 := by
  simp [sqnBytes]

theorem amfBytes_length (n : Nat) : (amfBytes n).length = 2 := rfl

/-- C7: for 16-byte K, OP and RAND, `ComputeOPc(K, OP)` succeeds, and each
derivation (F1, F1Star, F2345, F5Star, ComputeRESStar, GenerateAUTN,
GenerateAUTS) returns the same value on `New(K, OP, RAND, sqn, amf)` — which
derives OPc lazily on first use — as on
`NewWithOPc(K, ComputeOPc(K, OP), RAND, sqn, amf)`. -/
theorem c7_op_vs_opc (k op rand : Bytes) (sqn amf : Nat) (s a mcc mnc : Bytes)
    (hk : k.length = 16) (hop : op.length = 16) (hr : rand.length = 16) :
    ComputeOPc k (some op) = some (xorB (aesBlock k op) op) ∧
    (F1 (Milenage.new k (some op) rand sqn amf)).map Prod.fst =
      (F1 (Milenage.newWithOPc k (some (xorB (aesBlock k op) op)) rand sqn amf)).map
        Prod.fst ∧
    (F1Star (Milenage.new k (some op) rand sqn amf) s a).map Prod.fst =
      (F1Star (Milenage.newWithOPc k (some (xorB (aesBlock k op) op)) rand sqn amf) s a).map
        Prod.fst ∧
    (F2345 (Milenage.new k (some op) rand sqn amf)).map
        (fun r => (r.1, r.2.1, r.2.2.1, r.2.2.2.1)) =
      (F2345 (Milenage.newWithOPc k (some (xorB (aesBlock k op) op)) rand sqn amf)).map
        (fun r => (r.1, r.2.1, r.2.2.1, r.2.2.2.1)) ∧
    (F5Star (Milenage.new k (some op) rand sqn amf)).map Prod.fst =
      (F5Star (Milenage.newWithOPc k (some (xorB (aesBlock k op) op)) rand sqn amf)).map
        Prod.fst ∧
    (ComputeRESStar (Milenage.new k (some op) rand sqn amf) mcc mnc).map Prod.fst =
      (ComputeRESStar (Milenage.newWithOPc k (some (xorB (aesBlock k op) op)) rand sqn amf)
        mcc mnc).map Prod.fst ∧
    GenerateAUTN (Milenage.new k (some op) rand sqn amf) =
      GenerateAUTN (Milenage.newWithOPc k (some (xorB (aesBlock k op) op)) rand sqn amf) ∧
    (GenerateAUTS (Milenage.new k (some op) rand sqn amf)).map Prod.fst =
      (GenerateAUTS (Milenage.newWithOPc k (some (xorB (aesBlock k op) op)) rand
        sqn amf)).map Prod.fst := by
  have hlen : (xorB (aesBlock k op) op).length = 16 := by
    rw [xorB_length, aesBlock_length, hop, Nat.min_self]
  have hone : ComputeOPc k (some op) = some (xorB (aesBlock k op) op) := by
    unfold ComputeOPc
    rw [computeOPc_eq (m := Milenage.new k (some op) (List.replicate 16 0) 0 0) hk rfl hop]
    rfl
  have hvA : validateLength (Milenage.new k (some op) rand sqn amf) = true := by
    rw [validateLength_iff]
    simp [Milenage.new, tableOK, hk, hop, hr, sqnBytes_length, amfBytes_length]
  have hvB : validateLength
      (Milenage.newWithOPc k (some (xorB (aesBlock k op) op)) rand sqn amf) = true := by
    rw [validateLength_iff]
    simp [Milenage.newWithOPc, tableOK, hk, hr, hlen, sqnBytes_length, amfBytes_length]
  have heA : ensureOPc (Milenage.new k (some op) rand sqn amf) =
      some { Milenage.new k (some op) rand sqn amf with
             OPc := some (xorB (aesBlock k op) op) } := by
    have hstep : ensureOPc (Milenage.new k (some op) rand sqn amf) =
        computeOPc (Milenage.new k (some op) rand sqn amf) := rfl
    rw [hstep, computeOPc_eq hk rfl hop]
    rfl
  have heB : ensureOPc (Milenage.newWithOPc k (some (xorB (aesBlock k op) op)) rand sqn amf) =
      some (Milenage.newWithOPc k (some (xorB (aesBlock k op) op)) rand sqn amf) := rfl
  have hdenA : (Milenage.new k (some op) rand sqn amf).OPc.isSome = true ∨
      (Milenage.new k (some op) rand sqn amf).OP.isSome = true := Or.inr rfl
  have hdenB : (Milenage.newWithOPc k (some (xorB (aesBlock k op) op)) rand
      sqn amf).OPc.isSome = true ∨
      (Milenage.newWithOPc k (some (xorB (aesBlock k op) op)) rand sqn amf).OP.isSome =
        true := Or.inl rfl
  refine ⟨hone, ?_, ?_, ?_, ?_, ?_, ?_, ?_⟩
  · rw [F1_value hvA heA, F1_value hvB heB]
    rfl
  · rw [F1Star_value hvA heA s a, F1Star_value hvB heB s a]
    rfl
  · rw [F2345_value hvA heA, F2345_value hvB heB]
    rfl
  · rw [F5Star_value hvA heA, F5Star_value hvB heB]
    rfl
  · rw [computeRESStar_eq _ mcc mnc hvA, computeRESStar_eq _ mcc mnc hvB]
    by_cases hC : mcc.length = 3 ∧ (mnc.length = 2 ∨ mnc.length = 3)
    · rw [if_pos hC, if_pos hC]
      rfl
    · rw [if_neg hC, if_neg hC]
  · simp only [GenerateAUTN, hvA, hvB, if_true]
    rfl
  · rw [GenerateAUTS_value hvA hdenA heA, GenerateAUTS_value hvB hdenB heB]
    rfl

/-- C7 witness: the equivalence instantiated on the canonical inputs. -/
theorem c7_op_vs_opc_witness :
    ComputeOPc demoHex (some demoHex) = some (xorB (aesBlock demoHex demoHex) demoHex) ∧
    (F1 (Milenage.new demoHex (some demoHex) demoHex 1 0x8000)).map Prod.fst =
      (F1 (Milenage.newWithOPc demoHex (some (xorB (aesBlock demoHex demoHex) demoHex))
        demoHex 1 0x8000)).map Prod.fst ∧
    (F1Star (Milenage.new demoHex (some demoHex) demoHex 1 0x8000)
        (List.replicate 6 0) [0x00, 0x00]).map Prod.fst =
      (F1Star (Milenage.newWithOPc demoHex (some (xorB (aesBlock demoHex demoHex) demoHex))
        demoHex 1 0x8000) (List.replicate 6 0) [0x00, 0x00]).map Prod.fst ∧
    (F2345 (Milenage.new demoHex (some demoHex) demoHex 1 0x8000)).map
        (fun r => (r.1, r.2.1, r.2.2.1, r.2.2.2.1)) =
      (F2345 (Milenage.newWithOPc demoHex (some (xorB (aesBlock demoHex demoHex) demoHex))
        demoHex 1 0x8000)).map (fun r => (r.1, r.2.1, r.2.2.1, r.2.2.2.1)) ∧
    (F5Star (Milenage.new demoHex (some demoHex) demoHex 1 0x8000)).map Prod.fst =
      (F5Star (Milenage.newWithOPc demoHex (some (xorB (aesBlock demoHex demoHex) demoHex))
        demoHex 1 0x8000)).map Prod.fst ∧
    (ComputeRESStar (Milenage.new demoHex (some demoHex) demoHex 1 0x8000) mccBytes
        mncBytes).map Prod.fst =
      (ComputeRESStar (Milenage.newWithOPc demoHex
        (some (xorB (aesBlock demoHex demoHex) demoHex)) demoHex 1 0x8000) mccBytes
        mncBytes).map Prod.fst ∧
    GenerateAUTN (Milenage.new demoHex (some demoHex) demoHex 1 0x8000) =
      GenerateAUTN (Milenage.newWithOPc demoHex
        (some (xorB (aesBlock demoHex demoHex) demoHex)) demoHex 1 0x8000) ∧
    (GenerateAUTS (Milenage.new demoHex (some demoHex) demoHex 1 0x8000)).map Prod.fst =
      (GenerateAUTS (Milenage.newWithOPc demoHex
        (some (xorB (aesBlock demoHex demoHex) demoHex)) demoHex 1 0x8000)).map Prod.fst :=
  c7_op_vs_opc demoHex demoHex demoHex 1 0x8000 (List.replicate 6 0) [0x00, 0x00]
    mccBytes mncBytes (by decide) (by decide) (by decide)

/-- C8: for 16-byte K and OP, `ComputeOPc` succeeds and returns exactly
`AES-128(K, OP) ⊕ OP`, a full 16-byte value — the `i > len` bound of the
copy loop notwithstanding — and is deterministic (it is a function of K and
OP alone). -/
theorem c8_computeOPc (k op : Bytes) (hk : k.length = 16) (hop : op.length = 16) :
    ComputeOPc k (some op) = some (xorB (aesBlock k op) op) ∧
    (xorB (aesBlock k op) op).length = 16 := by
  constructor
  · unfold ComputeOPc
    rw [computeOPc_eq (m := Milenage.new k (some op) (List.replicate 16 0) 0 0) hk rfl hop]
    rfl
  · rw [xorB_length, aesBlock_length, hop, Nat.min_self]

/-- C8 witness: the canonical K = OP input, whose OPc is the golden value. -/
theorem c8_computeOPc_witness :
    ComputeOPc demoHex (some demoHex) = some (xorB (aesBlock demoHex demoHex) demoHex) ∧
    (xorB (aesBlock demoHex demoHex) demoHex).length = 16 :=
  c8_computeOPc demoHex demoHex (by decide) (by decide)

/-- C9: for every Aka instance, `ComputeKAMF` succeeds and returns (and
stores) the full 32-byte HMAC-SHA-256, keyed with the current KAUSF, of
`0x6D ‖ SUPI ‖ len(SUPI) ‖ 0x0000 ‖ 0x0002` — the literal trailing 0x0002
included. -/
theorem c9_computeKAMF (a : Aka) :
    ComputeKAMF a = some (hmacSHA256 a.KAUSF (kamfMsg a),
      { a with KAMF := hmacSHA256 a.KAUSF (kamfMsg a) }) ∧
    (hmacSHA256 a.KAUSF (kamfMsg a)).length = 32 :=
  ⟨rfl, hmacSHA256_length _ _⟩

/-- C10: a successful `ComputeRESStar` call leaves the instance exactly as it
was — in particular the computed RES* is only returned, never written to the
`RESStar` field. -/
theorem c10_resstar_frame (m : Milenage) (mcc mnc r : Bytes) (m' : Milenage)
    (h : ComputeRESStar m mcc mnc = some (r, m')) : m' = m := by
  unfold ComputeRESStar at h
  split at h
  · split at h
    · rcases hmnc : (if mnc.length = 2 then some (0x30 :: mnc)
          else if mnc.length = 3 then some mnc else none) with _ | mnc3 <;> rw [hmnc] at h
      · simp at h
      · simp only [Option.some_bind] at h
        split at h
        · simp only [Option.some.injEq, Prod.mk.injEq] at h
          exact h.2.symm
        · exact absurd h (by simp)
    · exact absurd h (by simp)
  · exact absurd h (by simp)

theorem out2Spec_congr {x y : Milenage} (hK : x.K = y.K) (hR : x.RAND = y.RAND)
    (ho : opcSpec x = opcSpec y) :
    out2Spec x = out2Spec y ∧ ckSpec x = ckSpec y ∧ ikSpec x = ikSpec y := by
  unfold out2Spec ckSpec ikSpec tempSpec
  rw [hK, hR, ho]
  exact ⟨rfl, rfl, rfl⟩

theorem out1Spec_congr {x y : Milenage} (hK : x.K = y.K) (hR : x.RAND = y.RAND)
    (ho : opcSpec x = opcSpec y) (sqn amf : Bytes) :
    out1Spec x sqn amf = out1Spec y sqn amf := by
  unfold out1Spec tempSpec
  rw [hK, hR, ho]

/-- C2: on an instance passing length validation whose OPc is present or
derivable from a 16-byte OP, `F2345` returns `(res, ck, ik, ak)` with
`ak = OUT2[0..6]`, `res = OUT2[8..16]`, `ck` and `ik` the rotated-and-flipped
AES blocks of §4.5, and stores all four on the instance. -/
theorem c2_f2345 (m : Milenage) (hv : validateLength m = true)
    (hden : m.OPc.isSome = true ∨ m.OP.isSome = true) :
    F2345 m = some ((out2Spec m).drop 8, ckSpec m, ikSpec m, (out2Spec m).take 6,
      { m with
        OPc := some (opcSpec m), RES := (out2Spec m).drop 8, CK := ckSpec m,
        IK := ikSpec m, AK := (out2Spec m).take 6 }) := by
  obtain ⟨hvK, hvR, -, -, -, -, -, -, -, -, -⟩ := validateLength_true hv
  rcases ho : m.OPc with _ | o
  · rcases hop : m.OP with _ | op
    · rw [ho, hop] at hden
      simp at hden
    · have hol := validateLength_OP hv hop
      have he : ensureOPc m = some { m with OPc := some (xorB (aesBlock m.K op) op) } := by
        rw [ensureOPc, ho]
        exact computeOPc_eq hvK hop hol
      have hspec : opcSpec m = xorB (aesBlock m.K op) op := by
        simp only [opcSpec, ho, hop, Option.getD_some]
      have hlen : (xorB (aesBlock m.K op) op).length = 16 := by
        rw [xorB_length, aesBlock_length, hol, Nat.min_self]
      simp only [F2345, hv, if_true, he, Option.some_bind]
      rw [f2345core_eq (m := { m with OPc := some (xorB (aesBlock m.K op) op) }) rfl hvK hvR
        hlen]
      simp only [Option.map_some']
      obtain ⟨h2, h3, h4⟩ := out2Spec_congr
        (x := { m with OPc := some (xorB (aesBlock m.K op) op) }) (y := m) rfl rfl hspec.symm
      rw [h2, h3, h4, hspec, hop]
  · have he : ensureOPc m = some m := by rw [ensureOPc, ho]
    have hol := validateLength_OPc hv ho
    have hspec : opcSpec m = o := by simp only [opcSpec, ho]
    simp only [F2345, hv, if_true, he, Option.some_bind]
    rw [f2345core_eq ho hvK hvR hol]
    simp only [Option.map_some']
    rw [hspec, ← ho]

/-- C2 witness: the theorem applied to the valid all-zero instance with a
populated OPc. -/
theorem c2_f2345_witness :
    F2345 mZeroOPc = some ((out2Spec mZeroOPc).drop 8, ckSpec mZeroOPc, ikSpec mZeroOPc,
      (out2Spec mZeroOPc).take 6,
      { mZeroOPc with
        OPc := some (opcSpec mZeroOPc), RES := (out2Spec mZeroOPc).drop 8,
        CK := ckSpec mZeroOPc, IK := ikSpec mZeroOPc, AK := (out2Spec mZeroOPc).take 6 }) :=
  c2_f2345 mZeroOPc (by decide) (Or.inl rfl)

theorem f1base_eq {m : Milenage} (hv : validateLength m = true)
    (hden : m.OPc.isSome = true ∨ m.OP.isSome = true) {sqn amf : Bytes}
    (hs : sqn.length = 6) (ha : amf.length = 2) :
    f1base m sqn amf = some (out1Spec m sqn amf, { m with OPc := some (opcSpec m) }) := by
  obtain ⟨hvK, hvR, -, -, -, -, -, -, -, -, -⟩ := validateLength_true hv
  rcases ho : m.OPc with _ | o
  · rcases hop : m.OP with _ | op
    · rw [ho, hop] at hden
      simp at hden
    · have hol := validateLength_OP hv hop
      have he : ensureOPc m = some { m with OPc := some (xorB (aesBlock m.K op) op) } := by
        rw [ensureOPc, ho]
        exact computeOPc_eq hvK hop hol
      have hspec : opcSpec m = xorB (aesBlock m.K op) op := by
        simp only [opcSpec, ho, hop, Option.getD_some]
      have hlen : (xorB (aesBlock m.K op) op).length = 16 := by
        rw [xorB_length, aesBlock_length, hol, Nat.min_self]
      simp only [f1base, hv, if_true, he, Option.some_bind]
      rw [f1core_eq (m := { m with OPc := some (xorB (aesBlock m.K op) op) }) rfl hvK hvR
        hlen hs ha]
      simp only [Option.map_some']
      rw [out1Spec_congr (x := { m with OPc := some (xorB (aesBlock m.K op) op) }) (y := m)
        rfl rfl hspec.symm sqn amf, hspec, hop]
  · have he : ensureOPc m = some m := by rw [ensureOPc, ho]
    have hol := validateLength_OPc hv ho
    have hspec : opcSpec m = o := by simp only [opcSpec, ho]
    simp only [f1base, hv, if_true, he, Option.some_bind]
    rw [f1core_eq ho hvK hvR hol hs ha]
    simp only [Option.map_some']
    rw [hspec, ← ho]

/-- C3: on an instance passing length validation whose OPc is present or
derivable, and for any 6-byte sqn and 2-byte amf: `F1` returns (and stores in
MACA) the first 8 bytes, and `F1Star(sqn, amf)` returns (and stores in MACS)
the last 8 bytes, of `OUT1 = AES(K, rot64(IN1 ⊕ OPc) ⊕ TEMP) ⊕ OPc`; F1 uses
the instance's own SQN and AMF. -/
theorem c3_f1_f1star (m : Milenage) (hv : validateLength m = true)
    (hden : m.OPc.isSome = true ∨ m.OP.isSome = true) (sqn amf : Bytes)
    (hs : sqn.length = 6) (ha : amf.length = 2) :
    F1 m = some ((out1Spec m m.SQN m.AMF).take 8,
      { m with OPc := some (opcSpec m), MACA := (out1Spec m m.SQN m.AMF).take 8 }) ∧
    F1Star m sqn amf = some ((out1Spec m sqn amf).drop 8,
      { m with OPc := some (opcSpec m), MACS := (out1Spec m sqn amf).drop 8 }) := by
  obtain ⟨-, -, hvS, hvA, -, -, -, -, -, -, -⟩ := validateLength_true hv
  constructor
  · simp only [F1, f1base_eq hv hden hvS hvA, Option.map_some']
  · simp only [F1Star, f1base_eq hv hden hs ha, Option.map_some']

/-- C3 witness: the theorem applied to the valid all-zero instance with a
populated OPc, with a zero sqn and amf. -/
theorem c3_f1_f1star_witness :
    F1 mZeroOPc = some ((out1Spec mZeroOPc mZeroOPc.SQN mZeroOPc.AMF).take 8,
      { mZeroOPc with
        OPc := some (opcSpec mZeroOPc),
        MACA := (out1Spec mZeroOPc mZeroOPc.SQN mZeroOPc.AMF).take 8 }) ∧
    F1Star mZeroOPc (List.replicate 6 0) [0x00, 0x00] =
      some ((out1Spec mZeroOPc (List.replicate 6 0) [0x00, 0x00]).drop 8,
      { mZeroOPc with
        OPc := some (opcSpec mZeroOPc),
        MACS := (out1Spec mZeroOPc (List.replicate 6 0) [0x00, 0x00]).drop 8 }) :=
  c3_f1_f1star mZeroOPc (by decide) (Or.inl rfl) (List.replicate 6 0) [0x00, 0x00]
    (by decide) (by decide)

/-- C4: for a validated instance, `ComputeRESStar(mcc, mnc)` errors exactly
when `len(mcc) ≠ 3` or `len(mnc) ∉ {2,3}`; otherwise (the 2-character MNC
zero-padded) it returns the last 16 bytes of HMAC-SHA-256 keyed with CK ‖ IK
over `0x6B ‖ SNN ‖ 0x0020 ‖ RAND ‖ 0x0010 ‖ RES ‖ 0x0008`, and the SNN is
exactly 32 bytes, so the SNN-length failure branch is never taken. -/
theorem c4_computeRESStar (m : Milenage) (hv : validateLength m = true) (mcc mnc : Bytes) :
    if mcc.length = 3 ∧ (mnc.length = 2 ∨ mnc.length = 3)
    then ComputeRESStar m mcc mnc = some (resStarSpec m mcc mnc, m) ∧
         (snnOf mcc (mncPad mnc)).length = 32
    else ComputeRESStar m mcc mnc = none := by
  by_cases hc : mcc.length = 3 ∧ (mnc.length = 2 ∨ mnc.length = 3)
  · rw [if_pos hc]
    exact ⟨by rw [computeRESStar_eq m mcc mnc hv, if_pos hc],
      snnOf_length32 hc.1 (mncPad_length hc.2)⟩
  · rw [if_neg hc, computeRESStar_eq m mcc mnc hv, if_neg hc]

/-- C4 witness: the theorem applied to the valid all-zero instance with
MCC 001 and MNC 01 (which the code zero-pads and accepts). -/
theorem c4_computeRESStar_witness :
    ComputeRESStar mZero mccBytes mncBytes =
      some (resStarSpec mZero mccBytes mncBytes, mZero) ∧
    (snnOf mccBytes (mncPad mncBytes)).length = 32 := by
  have h := c4_computeRESStar mZero (by decide) mccBytes mncBytes
  rw [if_pos (by decide)] at h
  exact h

set_option maxRecDepth 100000 in
/-- C10 witness: the frame property instantiated on the all-zero instance
with MCC 001 and MNC 01. -/
theorem c10_resstar_frame_witness :
    ComputeRESStar mZero mccBytes mncBytes = some (rZero, mZero) ∧ mZero = mZero :=
  ⟨by rfl, c10_resstar_frame mZero mccBytes mncBytes rZero mZero (by rfl)⟩

end FiveG
